import Mathlib

/-
Verification of the GC9A01A display driver (src/lib.rs).

The driver is embedded shallowly as a trace-producing computation: every
hardware primitive (chip-select / data-command / reset pin drive, SPI bus
write, millisecond delay) is recorded as an event.  Fallible primitives
(pin drives and bus writes) consult a fault oracle `ok : Nat → Bool`
indexed by the number of primitives attempted so far; a failing primitive
returns the collapsed transaction error, mirroring `map_err(|_| ())?` in
the source.  16-bit machine arithmetic is modelled on `Nat` with explicit
`% 65536` (release-mode wrapping semantics); slice indexing is checked and
an out-of-bounds slice is modelled as a `panicked` outcome, mirroring the
Rust panic.
-/

namespace GC9A01A

/-- Events observable at the hardware boundary: control-line edges, SPI bus
transmissions and delay requests. -/
inductive Ev where
  | csHigh
  | csLow
  | dcHigh
  | dcLow
  | rstHigh
  | rstLow
  | spiWrite (data : List Nat)
  | delayMs (ms : Nat)
deriving DecidableEq

/-- Failure modes: `txError` is the collapsed `Err(())` transaction error;
`panicked` models a Rust panic (out-of-bounds slice). -/
inductive Failure where
  | txError
  | panicked
deriving DecidableEq

/-- Run state: `n` counts the fallible primitives attempted so far (the index
into the fault oracle), `tr` is the list of events performed so far. -/
structure S where
  n : Nat
  tr : List Ev
deriving DecidableEq

/-- A driver computation: given a fault oracle (deciding, per attempted
primitive, whether it succeeds) and a run state, produce a result and a new
run state. -/
def DM (α : Type) : Type := (Nat → Bool) → S → Except Failure α × S

def ret {α : Type} (a : α) : DM α := fun _ s => (Except.ok a, s)

def bnd {α β : Type} (m : DM α) (f : α → DM β) : DM β := fun ok s =>
  match m ok s with
  | (Except.ok a, s1) => f a ok s1
  | (Except.error e, s1) => (Except.error e, s1)

/-- A fallible hardware primitive (a pin drive or an SPI bus write).  On
success the event is recorded; on failure the collapsed transaction error is
returned and nothing is recorded. -/
def attempt (e : Ev) : DM Unit := fun ok s =>
  if ok s.n then (Except.ok (), ⟨s.n + 1, s.tr ++ [e]⟩)
  else (Except.error Failure.txError, ⟨s.n + 1, s.tr⟩)

/-- `delay.delay_ms(ms)`: infallible, records a delay event. -/
def delay_ms (ms : Nat) : DM Unit := fun _ s =>
  (Except.ok (), ⟨s.n, s.tr ++ [Ev.delayMs ms]⟩)

/-- The fault-free environment: every primitive succeeds. -/
def allOkF : Nat → Bool := fun _ => true

/-- Driver state (`GC9A01A` struct): color order flag, global offset and the
configured panel dimensions.  The hardware handles are represented by the
event trace. -/
structure Driver where
  rgb : Bool
  dx : Nat
  dy : Nat
  width : Nat
  height : Nat
deriving DecidableEq

/-- `GC9A01A::new`: offsets start at zero. -/
def Driver.new (rgb : Bool) (width height : Nat) : Driver :=
  ⟨rgb, 0, 0, width, height⟩

-- Instruction opcodes (the `Instruction` enum of the source).
namespace Instruction

def NOP : Nat := 0x00
def SWRESET : Nat := 0x01
def RDDID : Nat := 0x04
def RDDST : Nat := 0x09
def SLPIN : Nat := 0x10
def SLPOUT : Nat := 0x11
def PTLON : Nat := 0x12
def NORON : Nat := 0x13
def INVOFF : Nat := 0x20
def INVON : Nat := 0x21
def DISPOFF : Nat := 0x28
def DISPON : Nat := 0x29
def CASET : Nat := 0x2A
def RASET : Nat := 0x2B
def RAMWR : Nat := 0x2C
def RAMRD : Nat := 0x2E
def PTLAR : Nat := 0x30
def COLMOD : Nat := 0x3A
def MADCTL : Nat := 0x36
def FRMCTR1 : Nat := 0xB1
def FRMCTR2 : Nat := 0xB2
def FRMCTR3 : Nat := 0xB3
def INVCTR : Nat := 0xB4
def DISSET5 : Nat := 0xB6
def PWCTR1 : Nat := 0xC0
def PWCTR2 : Nat := 0xC1
def PWCTR3 : Nat := 0xC2
def PWCTR4 : Nat := 0xC3
def PWCTR5 : Nat := 0xC4
def VMCTR1 : Nat := 0xC5
def RDID1 : Nat := 0xDA
def RDID2 : Nat := 0xDB
def RDID3 : Nat := 0xDC
def RDID4 : Nat := 0xDD
def PWCTR6 : Nat := 0xFC
def GMCTRP1 : Nat := 0xE0
def GMCTRN1 : Nat := 0xE1

end Instruction

/-- Display orientation (the `Orientation` enum). -/
inductive Orientation where
  | Portrait
  | Landscape
  | PortraitSwapped
  | LandscapeSwapped
deriving DecidableEq

/-- The discriminant value of each `Orientation` variant. -/
def Orientation.toByte : Orientation → Nat
  | .Portrait => 0x00
  | .Landscape => 0x60
  | .PortraitSwapped => 0xC0
  | .LandscapeSwapped => 0xA0

/-- `u16::to_be_bytes`: big-endian byte pair (high byte first). -/
def toBeBytes (v : Nat) : List Nat := [v / 256 % 256, v % 256]

/-- `start_data`: drive the data/command line to the data level. -/
def start_data : DM Unit := attempt Ev.dcHigh

/-- `write_data`: assert chip select, select data level, transmit the bytes,
deassert chip select. -/
def write_data (data : List Nat) : DM Unit :=
  bnd (attempt Ev.csHigh) fun _ =>
  bnd (attempt Ev.dcHigh) fun _ =>
  bnd (attempt Ev.csLow) fun _ =>
  bnd (attempt (Ev.spiWrite data)) fun _ =>
  attempt Ev.csHigh

/-- `write_command`: frame one opcode byte, then (only when `params` is
non-empty) switch to data level and transmit the parameters. -/
def write_command (command : Nat) (params : List Nat) : DM Unit :=
  bnd (attempt Ev.csHigh) fun _ =>
  bnd (attempt Ev.dcLow) fun _ =>
  bnd (attempt Ev.csLow) fun _ =>
  bnd (attempt (Ev.spiWrite [command])) fun _ =>
  bnd (if params.isEmpty then ret ()
       else bnd start_data fun _ => write_data params) fun _ =>
  attempt Ev.csHigh

/-- `write_word`: one 16-bit value as two big-endian bytes. -/
def write_word (value : Nat) : DM Unit :=
  write_data (toBeBytes value)

/-- Loop body of `write_words_buffered`: a fixed 32-byte buffer is filled two
bytes per word and flushed whenever full; the remainder `buffer[0..index]` is
flushed at the end. -/
def wwb_go : List Nat → List Nat → Nat → DM Unit
  | [], buffer, index => write_data (buffer.take index)
  | word :: rest, buffer, index =>
    let as_bytes := toBeBytes word
    let buffer1 := (buffer.set index (as_bytes.getD 0 0)).set (index + 1) (as_bytes.getD 1 0)
    let index1 := index + 2
    if index1 ≥ buffer1.length then
      bnd (write_data buffer1) fun _ => wwb_go rest buffer1 0
    else
      wwb_go rest buffer1 index1

/-- `write_words_buffered`: pack words into a 32-byte local buffer. -/
def write_words_buffered (words : List Nat) : DM Unit :=
  wwb_go words (List.replicate 32 0) 0

/-- `set_orientation`: MADCTL with the orientation bit-pattern, OR 0x08 when
the panel is BGR. -/
def set_orientation (d : Driver) (orientation : Orientation) : DM Unit :=
  if d.rgb then
    write_command Instruction.MADCTL [orientation.toByte]
  else
    write_command Instruction.MADCTL [orientation.toByte ||| 0x08]

/-- `set_offset`: store the global offset. -/
def set_offset (d : Driver) (dx dy : Nat) : Driver :=
  { d with dx := dx, dy := dy }

/-- `set_address_window`: CASET with the offset start/end columns, then RASET
with the offset start/end rows, each as a big-endian 16-bit word
(u16 addition wraps modulo 2^16). -/
def set_address_window (d : Driver) (sx sy ex ey : Nat) : DM Unit :=
  bnd (write_command Instruction.CASET []) fun _ =>
  bnd start_data fun _ =>
  bnd (write_word ((sx + d.dx) % 65536)) fun _ =>
  bnd (write_word ((ex + d.dx) % 65536)) fun _ =>
  bnd (write_command Instruction.RASET []) fun _ =>
  bnd start_data fun _ =>
  bnd (write_word ((sy + d.dy) % 65536)) fun _ =>
  write_word ((ey + d.dy) % 65536)

/-- `set_pixel`: 1-by-1 window at `(x, y)`, then RAMWR, then one color word. -/
def set_pixel (d : Driver) (x y color : Nat) : DM Unit :=
  bnd (set_address_window d x y x y) fun _ =>
  bnd (write_command Instruction.RAMWR []) fun _ =>
  bnd start_data fun _ =>
  write_word color

/-- Loop body of `write_pixels`: one `write_word` per color. -/
def write_pixels_go : List Nat → DM Unit
  | [] => ret ()
  | color :: colors => bnd (write_word color) fun _ => write_pixels_go colors

/-- `write_pixels`: RAMWR, then stream the colors one word per transaction. -/
def write_pixels (colors : List Nat) : DM Unit :=
  bnd (write_command Instruction.RAMWR []) fun _ =>
  bnd start_data fun _ =>
  write_pixels_go colors

/-- `write_pixels_buffered`: RAMWR, then the buffered word writer. -/
def write_pixels_buffered (colors : List Nat) : DM Unit :=
  bnd (write_command Instruction.RAMWR []) fun _ =>
  bnd start_data fun _ =>
  write_words_buffered colors

/-- `set_pixels`: window then unbuffered pixel stream. -/
def set_pixels (d : Driver) (sx sy ex ey : Nat) (colors : List Nat) : DM Unit :=
  bnd (set_address_window d sx sy ex ey) fun _ =>
  write_pixels colors

/-- `set_pixels_buffered`: window then buffered pixel stream. -/
def set_pixels_buffered (d : Driver) (sx sy ex ey : Nat) (colors : List Nat) : DM Unit :=
  bnd (set_address_window d sx sy ex ey) fun _ =>
  write_pixels_buffered colors

/-- `slice::chunks(n)`: consecutive chunks of `n` elements, the last chunk
possibly shorter.  (`chunks(0)` panics in Rust; the `0` case here is inert,
only `chunksOf 32` is used.) -/
def chunksOf : Nat → List Nat → List (List Nat)
  | _, [] => []
  | 0, _ :: _ => []
  | n + 1, x :: xs => ((x :: xs).take (n + 1)) :: chunksOf (n + 1) ((x :: xs).drop (n + 1))
termination_by _ l => l.length
decreasing_by
  simp [List.length_drop]
  omega

/-- A `for chunk in ... { self.write_data(chunk)?; }` loop. -/
def write_chunks : List (List Nat) → DM Unit
  | [] => ret ()
  | c :: cs => bnd (write_data c) fun _ => write_chunks cs

/-- `draw_image`: full-panel window (dimensions truncated to u16), RAMWR, then
the byte buffer in 32-byte chunks. -/
def draw_image (d : Driver) (image_data : List Nat) : DM Unit :=
  let width := d.width % 65536
  let height := d.height % 65536
  bnd (set_address_window d 0 0 ((width + 65535) % 65536) ((height + 65535) % 65536)) fun _ =>
  bnd (write_command Instruction.RAMWR []) fun _ =>
  bnd start_data fun _ =>
  write_chunks (chunksOf 32 image_data)

/-- `show`: hardcoded 240-by-240 window written as literal parameter bytes
(bypassing `set_address_window` and the global offset), RAMWR, then the whole
buffer in a single SPI transmission.  (Named `show_buffer` because `show` is a
reserved word in Lean.) -/
def show_buffer (d : Driver) (buffer : List Nat) : DM Unit :=
  bnd (write_command Instruction.CASET []) fun _ =>
  bnd (write_data [0x00, 0x00, 0x00, 0xEF]) fun _ =>
  bnd (write_command Instruction.RASET []) fun _ =>
  bnd (write_data [0x00, 0x00, 0x00, 0xEF]) fun _ =>
  bnd (write_command Instruction.RAMWR []) fun _ =>
  bnd (attempt Ev.csHigh) fun _ =>
  bnd (attempt Ev.dcHigh) fun _ =>
  bnd (attempt Ev.csLow) fun _ =>
  bnd (attempt (Ev.spiWrite buffer)) fun _ =>
  attempt Ev.csHigh

/-- `&buffer[start..stop]`: `some` slice when in bounds, otherwise `none`
(a Rust panic). -/
def sliceRange (buffer : List Nat) (start stop : Nat) : Option (List Nat) :=
  if start ≤ stop ∧ stop ≤ buffer.length then
    some ((buffer.drop start).take (stop - start))
  else
    none

/-- Row loop of `show_region`: for each row, slice
`buffer[(y*panel_width + sx)*2 .. +width*2]` and stream it in 32-byte
chunks; an out-of-bounds slice panics. -/
def show_region_rows (d : Driver) (buffer : List Nat) (sx width : Nat) : List Nat → DM Unit
  | [] => ret ()
  | y :: ys =>
    let buffer_width := d.width
    let start_index := (y * buffer_width + sx) * 2
    let end_index := start_index + width * 2
    match sliceRange buffer start_index end_index with
    | none => fun _ s => (Except.error Failure.panicked, s)
    | some row =>
      bnd (write_chunks (chunksOf 32 row)) fun _ =>
      show_region_rows d buffer sx width ys

/-- `show_region`: window over the region (u16 arithmetic wraps), RAMWR, then
one full-panel-stride row slice per row. -/
def show_region (d : Driver) (buffer : List Nat) (top_left_x top_left_y width height : Nat) : DM Unit :=
  let sx := top_left_x
  let sy := top_left_y
  let ex := (top_left_x + width + 65535) % 65536
  let ey := (top_left_y + height + 65535) % 65536
  bnd (set_address_window d sx sy ex ey) fun _ =>
  bnd (write_command Instruction.RAMWR []) fun _ =>
  bnd start_data fun _ =>
  show_region_rows d buffer sx width (List.range' sy (ey + 1 - sy))

/-- `hard_reset`: reset line high, low, high, with 10 ms delays. -/
def hard_reset : DM Unit :=
  bnd (attempt Ev.rstHigh) fun _ =>
  bnd (delay_ms 10) fun _ =>
  bnd (attempt Ev.rstLow) fun _ =>
  bnd (delay_ms 10) fun _ =>
  bnd (attempt Ev.rstHigh) fun _ =>
  delay_ms 10

/-- `init`: hard reset, then the fixed vendor register program, ending with
sleep-out (0x11) and display-on (0x29), then a 200 ms stabilization delay. -/
def init : DM Unit :=
  bnd hard_reset fun _ =>
  bnd (write_command 0xEF []) fun _ =>
  bnd (write_command 0xEB [0x14]) fun _ =>
  bnd (write_command 0xFE []) fun _ =>
  bnd (write_command 0xEF []) fun _ =>
  bnd (write_command 0xEB [0x14]) fun _ =>
  bnd (write_command 0x84 [0x40]) fun _ =>
  bnd (write_command 0x85 [0xFF]) fun _ =>
  bnd (write_command 0x86 [0xFF]) fun _ =>
  bnd (write_command 0x87 [0xFF]) fun _ =>
  bnd (write_command 0x88 [0x0A]) fun _ =>
  bnd (write_command 0x89 [0x21]) fun _ =>
  bnd (write_command 0x8A [0x00]) fun _ =>
  bnd (write_command 0x8B [0x80]) fun _ =>
  bnd (write_command 0x8C [0x01]) fun _ =>
  bnd (write_command 0x8D [0x01]) fun _ =>
  bnd (write_command 0x8E [0xFF]) fun _ =>
  bnd (write_command 0x8F [0xFF]) fun _ =>
  bnd (write_command 0xB6 [0x00, 0x20]) fun _ =>
  bnd (write_command 0x36 [0x98]) fun _ =>
  bnd (write_command 0x3A [0x05]) fun _ =>
  bnd (write_command 0x90 [0x08, 0x08, 0x08, 0x08]) fun _ =>
  bnd (write_command 0xBD [0x06]) fun _ =>
  bnd (write_command 0xBC [0x00]) fun _ =>
  bnd (write_command 0xFF [0x60, 0x01, 0x04]) fun _ =>
  bnd (write_command 0xC3 [0x13]) fun _ =>
  bnd (write_command 0xC4 [0x13]) fun _ =>
  bnd (write_command 0xC9 [0x22]) fun _ =>
  bnd (write_command 0xBE [0x11]) fun _ =>
  bnd (write_command 0xE1 [0x10, 0x0E]) fun _ =>
  bnd (write_command 0xDF [0x21, 0x0C, 0x02]) fun _ =>
  bnd (write_command 0xF0 [0x45, 0x09, 0x08, 0x08, 0x26, 0x2A]) fun _ =>
  bnd (write_command 0xF1 [0x43, 0x70, 0x72, 0x36, 0x37, 0x6F]) fun _ =>
  bnd (write_command 0xF2 [0x45, 0x09, 0x08, 0x08, 0x26, 0x2A]) fun _ =>
  bnd (write_command 0xF3 [0x43, 0x70, 0x72, 0x36, 0x37, 0x6F]) fun _ =>
  bnd (write_command 0xED [0x1B, 0x0B]) fun _ =>
  bnd (write_command 0xAE [0x77]) fun _ =>
  bnd (write_command 0xCD [0x63]) fun _ =>
  bnd (write_command 0x70 [0x07, 0x07, 0x04, 0x0E, 0x0F, 0x09, 0x07, 0x08, 0x03]) fun _ =>
  bnd (write_command 0xE8 [0x34]) fun _ =>
  bnd (write_command 0x62 [0x18, 0x0D, 0x71, 0xED, 0x70, 0x70, 0x18, 0x0F, 0x71, 0xEF, 0x70, 0x70]) fun _ =>
  bnd (write_command 0x63 [0x18, 0x11, 0x71, 0xF1, 0x70, 0x70, 0x18, 0x13, 0x71, 0xF3, 0x70, 0x70]) fun _ =>
  bnd (write_command 0x64 [0x28, 0x29, 0xF1, 0x01, 0xF1, 0x00, 0x07]) fun _ =>
  bnd (write_command 0x66 [0x3C, 0x00, 0xCD, 0x67, 0x45, 0x45, 0x10, 0x00, 0x00, 0x00]) fun _ =>
  bnd (write_command 0x67 [0x00, 0x3C, 0x00, 0x00, 0x00, 0x01, 0x54, 0x10, 0x32, 0x98]) fun _ =>
  bnd (write_command 0x74 [0x10, 0x85, 0x80, 0x00, 0x00, 0x4E, 0x00]) fun _ =>
  bnd (write_command 0x98 [0x3E, 0x07]) fun _ =>
  bnd (write_command 0x35 []) fun _ =>
  bnd (write_command 0x21 []) fun _ =>
  bnd (write_command 0x11 []) fun _ =>
  bnd (write_command 0x29 []) fun _ =>
  bnd (delay_ms 200) fun _ =>
  ret ()

/-! ## Expected traces and observation functions -/

/-- Expected event trace of a successful `write_data`. -/
def wdTr (data : List Nat) : List Ev :=
  [Ev.csHigh, Ev.dcHigh, Ev.csLow, Ev.spiWrite data, Ev.csHigh]

/-- Expected event trace of a successful `write_command`. -/
def wcTr (command : Nat) (params : List Nat) : List Ev :=
  [Ev.csHigh, Ev.dcLow, Ev.csLow, Ev.spiWrite [command]] ++
    (if params.isEmpty then [] else Ev.dcHigh :: wdTr params) ++ [Ev.csHigh]

/-- Number of fallible primitives executed by a successful `write_command`. -/
def wcCount (params : List Nat) : Nat := if params.isEmpty then 5 else 11

/-- Expected event trace of a successful `set_address_window`. -/
def sawTr (d : Driver) (sx sy ex ey : Nat) : List Ev :=
  wcTr Instruction.CASET [] ++ [Ev.dcHigh] ++
    wdTr (toBeBytes ((sx + d.dx) % 65536)) ++ wdTr (toBeBytes ((ex + d.dx) % 65536)) ++
    wcTr Instruction.RASET [] ++ [Ev.dcHigh] ++
    wdTr (toBeBytes ((sy + d.dy) % 65536)) ++ wdTr (toBeBytes ((ey + d.dy) % 65536))

/-- Expected event trace of a chunk-writing loop. -/
def chunksTr : List (List Nat) → List Ev
  | [] => []
  | c :: cs => wdTr c ++ chunksTr cs

/-- The bytes an event puts on the SPI bus. -/
def evBytes : Ev → List Nat
  | Ev.spiWrite data => data
  | _ => []

/-- 1 for an SPI transmission, 0 for any other event. -/
def evCount : Ev → Nat
  | Ev.spiWrite _ => 1
  | _ => 0

/-- The byte stream a trace puts on the SPI bus, in order. -/
def spiStream : List Ev → List Nat
  | [] => []
  | e :: rest => evBytes e ++ spiStream rest

/-- Number of SPI transmissions in a trace. -/
def spiCount : List Ev → Nat
  | [] => 0
  | e :: rest => evCount e + spiCount rest

theorem spiStream_append (a b : List Ev) :
    spiStream (a ++ b) = spiStream a ++ spiStream b := by
  induction a with
  | nil => simp [spiStream]
  | cons e a ih => simp [spiStream, ih]

theorem spiCount_append (a b : List Ev) :
    spiCount (a ++ b) = spiCount a + spiCount b := by
  induction a with
  | nil => simp [spiCount]
  | cons e a ih => simp [spiCount, ih]; omega

theorem spiStream_wdTr (data : List Nat) : spiStream (wdTr data) = data := by
  simp [wdTr, spiStream, evBytes]

theorem spiStream_wcTr (command : Nat) (params : List Nat) :
    spiStream (wcTr command params) = command :: params := by
  cases params <;> simp [wcTr, wdTr, spiStream, evBytes]

theorem spiStream_chunksTr (cs : List (List Nat)) :
    spiStream (chunksTr cs) = cs.flatten := by
  induction cs with
  | nil => simp [chunksTr, spiStream]
  | cons c cs ih => simp [chunksTr, spiStream_append, spiStream_wdTr, ih]

/-! ## Fault-free runs of the primitives -/

theorem attempt_run (e : Ev) (s : S) :
    attempt e allOkF s = (Except.ok (), ⟨s.n + 1, s.tr ++ [e]⟩) := rfl

theorem delay_ms_run (ms : Nat) (s : S) :
    delay_ms ms allOkF s = (Except.ok (), ⟨s.n, s.tr ++ [Ev.delayMs ms]⟩) := rfl

theorem start_data_run (s : S) :
    start_data allOkF s = (Except.ok (), ⟨s.n + 1, s.tr ++ [Ev.dcHigh]⟩) := rfl

theorem write_data_run (data : List Nat) (s : S) :
    write_data data allOkF s = (Except.ok (), ⟨s.n + 5, s.tr ++ wdTr data⟩) := by
  simp [write_data, bnd, attempt_run, wdTr, List.append_assoc, Nat.add_assoc]

theorem write_command_run (command : Nat) (params : List Nat) (s : S) :
    write_command command params allOkF s =
      (Except.ok (), ⟨s.n + wcCount params, s.tr ++ wcTr command params⟩) := by
  cases params with
  | nil =>
      simp [write_command, bnd, attempt_run, ret, wcTr, wcCount,
        List.append_assoc, Nat.add_assoc]
  | cons p ps =>
      simp [write_command, bnd, attempt_run, start_data_run, write_data_run,
        ret, wcTr, wdTr, wcCount, List.append_assoc, Nat.add_assoc]

theorem write_word_run (v : Nat) (s : S) :
    write_word v allOkF s = (Except.ok (), ⟨s.n + 5, s.tr ++ wdTr (toBeBytes v)⟩) :=
  write_data_run _ _

theorem set_address_window_run (d : Driver) (sx sy ex ey : Nat) (s : S) :
    set_address_window d sx sy ex ey allOkF s =
      (Except.ok (), ⟨s.n + 32, s.tr ++ sawTr d sx sy ex ey⟩) := by
  simp [set_address_window, bnd, write_command_run, start_data_run, write_word_run,
    sawTr, wcCount, List.append_assoc, Nat.add_assoc]

theorem write_chunks_run (cs : List (List Nat)) (s : S) :
    write_chunks cs allOkF s =
      (Except.ok (), ⟨s.n + 5 * cs.length, s.tr ++ chunksTr cs⟩) := by
  induction cs generalizing s with
  | nil => simp [write_chunks, ret, chunksTr]
  | cons c cs ih =>
      simp [write_chunks, bnd, write_data_run, ih, chunksTr,
        List.append_assoc, Nat.add_assoc, Nat.mul_add, Nat.mul_one]
      omega

theorem chunksOf_flatten_aux (n k : Nat) :
    ∀ l : List Nat, l.length ≤ k → (chunksOf (n + 1) l).flatten = l := by
  induction k with
  | zero =>
      intro l h
      cases l with
      | nil => simp [chunksOf]
      | cons x xs => simp at h
  | succ k ih =>
      intro l h
      cases l with
      | nil => simp [chunksOf]
      | cons x xs =>
          rw [chunksOf]
          simp only [List.flatten_cons]
          have hd : ((x :: xs).drop (n + 1)).length ≤ k := by
            simp only [List.length_drop, List.length_cons] at *
            omega
          rw [ih ((x :: xs).drop (n + 1)) hd]
          exact List.take_append_drop (n + 1) (x :: xs)

/-- Chunking with a positive chunk size loses no bytes. -/
theorem chunksOf_flatten (n : Nat) (hn : 0 < n) (l : List Nat) :
    (chunksOf n l).flatten = l := by
  cases n with
  | zero => exact (Nat.lt_irrefl 0 hn).elim
  | succ m => exact chunksOf_flatten_aux m l.length l Nat.le.refl

/-- Writing two fresh bytes at `index`, `index + 1` and taking the first
`index + 2` bytes yields the old initial segment plus the two bytes. -/
theorem take_set_pair (l : List Nat) : ∀ (i a b : Nat), i + 1 < l.length →
    ((l.set i a).set (i + 1) b).take (i + 2) = l.take i ++ [a, b] := by
  induction l with
  | nil => intro i a b h; simp at h
  | cons x xs ih =>
      intro i a b h
      cases i with
      | zero =>
          cases xs with
          | nil => simp at h
          | cons y ys => simp
      | succ j =>
          have h2 : j + 1 < xs.length := by
            simp only [List.length_cons] at h
            omega
          simp only [List.set_cons_succ, List.set_cons_zero, List.take_succ_cons]
          rw [ih j a b h2]
          simp

/-- Big-endian serialization of a word sequence. -/
def wordsToBytes : List Nat → List Nat
  | [] => []
  | w :: ws => toBeBytes w ++ wordsToBytes ws

theorem wwb_go_run (ws : List Nat) :
    ∀ (buffer : List Nat) (index : Nat) (s : S), buffer.length = 32 →
      index % 2 = 0 → index ≤ 30 →
      (wwb_go ws buffer index allOkF s).fst = Except.ok () ∧
      spiStream (wwb_go ws buffer index allOkF s).snd.tr
        = spiStream s.tr ++ buffer.take index ++ wordsToBytes ws ∧
      spiCount (wwb_go ws buffer index allOkF s).snd.tr
        = spiCount s.tr + (index + 2 * ws.length) / 32 + 1 := by
  induction ws with
  | nil =>
      intro buffer index s hlen hpar hle
      simp [wwb_go, write_data_run, spiStream_append, spiCount_append,
        spiStream, evBytes, wdTr, spiCount, evCount, wordsToBytes]
      omega
  | cons w ws ih =>
      intro buffer index s hlen hpar hle
      simp only [wwb_go, toBeBytes, List.getD_cons_zero, List.getD_cons_succ,
        List.length_set, hlen, ge_iff_le, List.length_cons]
      by_cases h30 : index = 30
      · subst h30
        rw [if_pos (by omega)]
        set X := (buffer.set 30 (w / 256 % 256)).set (30 + 1) (w % 256) with hX
        have hlX : X.length = 32 := by simp [hX, hlen]
        have hfull : X = buffer.take 30 ++ [w / 256 % 256, w % 256] := by
          have h2 := take_set_pair buffer 30 (w / 256 % 256) (w % 256) (by omega)
          rw [show (30 : Nat) + 2 = 32 from rfl, ← hX] at h2
          rw [← h2, ← hlX, List.take_length]
        obtain ⟨ih1, ih2, ih3⟩ := ih X 0 ⟨s.n + 5, s.tr ++ wdTr X⟩ hlX (by decide) (by omega)
        simp only [bnd, write_data_run]
        refine ⟨ih1, ?_, ?_⟩
        · rw [ih2]
          simp only [List.take_zero, List.append_nil, spiStream_append, spiStream_wdTr]
          rw [hfull]
          simp [wordsToBytes, toBeBytes, spiStream_append, List.append_assoc]
        · rw [ih3]
          simp only [spiCount_append, wdTr, spiCount, evCount]
          omega
      · rw [if_neg (by omega)]
        obtain ⟨ih1, ih2, ih3⟩ :=
          ih ((buffer.set index (w / 256 % 256)).set (index + 1) (w % 256))
            (index + 2) s (by simp [hlen]) (by omega) (by omega)
        refine ⟨ih1, ?_, ?_⟩
        · rw [ih2, take_set_pair buffer index _ _ (by omega)]
          simp [wordsToBytes, toBeBytes, List.append_assoc]
        · rw [ih3]
          omega

/-- `write_words_buffered` under the fault-free oracle: succeeds, streams the
big-endian serialization of the words, and performs one SPI transmission per
full 16-word buffer plus one final flush of the remainder. -/
theorem write_words_buffered_run (ws : List Nat) (s : S) :
    (write_words_buffered ws allOkF s).fst = Except.ok () ∧
    spiStream (write_words_buffered ws allOkF s).snd.tr
      = spiStream s.tr ++ wordsToBytes ws ∧
    spiCount (write_words_buffered ws allOkF s).snd.tr
      = spiCount s.tr + ws.length / 16 + 1 := by
  obtain ⟨h1, h2, h3⟩ :=
    wwb_go_run ws (List.replicate 32 0) 0 s (by simp) (by decide) (by omega)
  refine ⟨h1, ?_, ?_⟩
  · simpa [write_words_buffered] using h2
  · rw [show write_words_buffered ws allOkF s = wwb_go ws (List.replicate 32 0) 0 allOkF s from rfl,
      h3]
    omega

/-- N sequential `write_word` calls (the unbuffered word path). -/
def write_word_seq : List Nat → DM Unit
  | [] => ret ()
  | w :: ws => bnd (write_word w) fun _ => write_word_seq ws

/-- Expected event trace of sequential `write_word` calls. -/
def seqTr : List Nat → List Ev
  | [] => []
  | w :: ws => wdTr (toBeBytes w) ++ seqTr ws

theorem write_word_seq_run (ws : List Nat) : ∀ s : S,
    write_word_seq ws allOkF s =
      (Except.ok (), ⟨s.n + 5 * ws.length, s.tr ++ seqTr ws⟩) := by
  induction ws with
  | nil => intro s; simp [write_word_seq, ret, seqTr]
  | cons w ws ih =>
      intro s
      simp [write_word_seq, bnd, write_word_run, ih, seqTr,
        List.append_assoc, Nat.add_assoc]
      omega

theorem spiStream_seqTr (ws : List Nat) : spiStream (seqTr ws) = wordsToBytes ws := by
  induction ws with
  | nil => simp [seqTr, spiStream, wordsToBytes]
  | cons w ws ih => simp [seqTr, wordsToBytes, spiStream_append, spiStream_wdTr, ih]

/-- Bytes of the row slices streamed by `show_region`'s row loop. -/
def rowsBytes (W sx w : Nat) (buffer : List Nat) : List Nat → List Nat
  | [] => []
  | y :: ys =>
      (buffer.drop ((y * W + sx) * 2)).take (w * 2) ++ rowsBytes W sx w buffer ys

theorem show_region_rows_run (d : Driver) (buffer : List Nat) (sx w : Nat) :
    ∀ (ys : List Nat) (s : S),
      (∀ y ∈ ys, (y * d.width + sx) * 2 + w * 2 ≤ buffer.length) →
      (show_region_rows d buffer sx w ys allOkF s).fst = Except.ok () ∧
      spiStream (show_region_rows d buffer sx w ys allOkF s).snd.tr
        = spiStream s.tr ++ rowsBytes d.width sx w buffer ys := by
  intro ys
  induction ys with
  | nil =>
      intro s hb
      simp [show_region_rows, ret, rowsBytes]
  | cons y ys ih =>
      intro s hb
      have hy := hb y (List.mem_cons_self y ys)
      have hsl : sliceRange buffer ((y * d.width + sx) * 2) ((y * d.width + sx) * 2 + w * 2)
          = some ((buffer.drop ((y * d.width + sx) * 2)).take (w * 2)) := by
        rw [sliceRange, if_pos ⟨Nat.le_add_right _ _, hy⟩, Nat.add_sub_cancel_left]
      simp only [show_region_rows, hsl]
      obtain ⟨ih1, ih2⟩ := ih
        ⟨s.n + 5 * (chunksOf 32 ((buffer.drop ((y * d.width + sx) * 2)).take (w * 2))).length,
          s.tr ++ chunksTr (chunksOf 32 ((buffer.drop ((y * d.width + sx) * 2)).take (w * 2)))⟩
        (fun z hz => hb z (List.mem_cons_of_mem y hz))
      simp only [bnd, write_chunks_run]
      refine ⟨ih1, ?_⟩
      rw [ih2]
      simp only [spiStream_append, spiStream_chunksTr, chunksOf_flatten 32 (by omega),
        rowsBytes, List.append_assoc]

theorem rowsBytes_range (W : Nat) (buffer : List Nat) :
    ∀ (H k : Nat), rowsBytes W 0 W buffer (List.range' k H)
      = (buffer.drop (k * W * 2)).take (H * W * 2) := by
  intro H
  induction H with
  | zero => intro k; simp [rowsBytes]
  | succ H ih =>
      intro k
      rw [List.range'_succ]
      simp only [rowsBytes]
      rw [ih (k + 1)]
      rw [show (k * W + 0) * 2 = k * W * 2 by ring]
      rw [show (k + 1) * W * 2 = W * 2 + k * W * 2 by ring]
      rw [← List.drop_drop]
      rw [show (H + 1) * W * 2 = W * 2 + H * W * 2 by ring, List.take_add]
      simp [List.drop_drop, Nat.add_comm]

/-- If the row loop succeeds, every visited row's slice was in bounds. -/
theorem show_region_rows_bound (d : Driver) (buffer : List Nat) (sx w : Nat) :
    ∀ (ys : List Nat) (ok : Nat → Bool) (s : S) (y : Nat), y ∈ ys →
      (show_region_rows d buffer sx w ys ok s).fst = Except.ok () →
      (y * d.width + sx) * 2 + w * 2 ≤ buffer.length := by
  intro ys
  induction ys with
  | nil =>
      intro ok s y hy
      exact absurd hy (List.not_mem_nil y)
  | cons y0 ys ih =>
      intro ok s y hy hok
      simp only [show_region_rows] at hok
      rcases hsl : sliceRange buffer ((y0 * d.width + sx) * 2)
          ((y0 * d.width + sx) * 2 + w * 2) with _ | row
      · rw [hsl] at hok
        simp at hok
      · rw [hsl] at hok
        rcases List.mem_cons.mp hy with rfl | hy2
        · by_cases hc : (y * d.width + sx) * 2 ≤ (y * d.width + sx) * 2 + w * 2 ∧
              (y * d.width + sx) * 2 + w * 2 ≤ buffer.length
          · exact hc.2
          · rw [sliceRange, if_neg hc] at hsl
            exact absurd hsl (by simp)
        · rcases hwc : write_chunks (chunksOf 32 row) ok s with ⟨r1, s1⟩
          cases r1 with
          | error e =>
              simp only [bnd, hwc] at hok
              simp at hok
          | ok a =>
              simp only [bnd, hwc] at hok
              exact ih ok s1 y hy2 hok

theorem bnd_ret_unit (m : DM Unit) : (bnd m fun _ => ret ()) = m := by
  funext ok s
  rcases h : m ok s with ⟨r, s1⟩
  cases r with
  | ok a => cases a; simp [bnd, h, ret]
  | error e => simp [bnd, h]

/-! ## Claims -/

/-- Claim C1: after `set_offset(dx, dy)`, `set_address_window(sx, sy, ex, ey)`
transmits the CASET command (0x2A) with big-endian 16-bit parameters `sx + dx`
then `ex + dx`, followed by the RASET command (0x2B) with big-endian 16-bit
parameters `sy + dy` then `ey + dy`, in exactly that order (u16 sums taken
modulo 2^16, which is what "as a big-endian 16-bit value" transmits). -/
theorem c1_set_offset_then_address_window (d : Driver) (dx dy sx sy ex ey : Nat) :
    set_address_window (set_offset d dx dy) sx sy ex ey allOkF ⟨0, []⟩ =
      (Except.ok (), ⟨32,
        wcTr Instruction.CASET [] ++ [Ev.dcHigh] ++
          wdTr (toBeBytes ((sx + dx) % 65536)) ++ wdTr (toBeBytes ((ex + dx) % 65536)) ++
          wcTr Instruction.RASET [] ++ [Ev.dcHigh] ++
          wdTr (toBeBytes ((sy + dy) % 65536)) ++ wdTr (toBeBytes ((ey + dy) % 65536))⟩) ∧
    spiStream (set_address_window (set_offset d dx dy) sx sy ex ey allOkF ⟨0, []⟩).snd.tr =
      [0x2A] ++ toBeBytes ((sx + dx) % 65536) ++ toBeBytes ((ex + dx) % 65536) ++
        [0x2B] ++ toBeBytes ((sy + dy) % 65536) ++ toBeBytes ((ey + dy) % 65536) := by
  have h := set_address_window_run (set_offset d dx dy) sx sy ex ey ⟨0, []⟩
  constructor
  · rw [h]
    simp [sawTr, set_offset, List.append_assoc]
  · rw [h]
    simp [sawTr, set_offset, spiStream_append, spiStream_wcTr, spiStream_wdTr,
      spiStream, evBytes, Instruction.CASET, Instruction.RASET, List.append_assoc]

/-- Claim C5: for every driver state (any configured dimensions, any global
offset, any color order), `show` issues CASET and RASET with the literal
parameter bytes 00 00 00 EF, then RAMWR, then streams the whole buffer in a
single SPI transmission. -/
theorem c5_show_hardcoded_window (d : Driver) (buffer : List Nat) :
    show_buffer d buffer allOkF ⟨0, []⟩ =
      (Except.ok (), ⟨30,
        wcTr Instruction.CASET [] ++ wdTr [0x00, 0x00, 0x00, 0xEF] ++
          wcTr Instruction.RASET [] ++ wdTr [0x00, 0x00, 0x00, 0xEF] ++
          wcTr Instruction.RAMWR [] ++
          [Ev.csHigh, Ev.dcHigh, Ev.csLow, Ev.spiWrite buffer, Ev.csHigh]⟩) := by
  simp [show_buffer, bnd, write_command_run, write_data_run, attempt_run,
    wcTr, wdTr, wcCount, List.append_assoc, Nat.add_assoc]

/-- Claim C6: `set_orientation` issues MADCTL (0x36) with the orientation's
bit-pattern OR'd with 0x08 exactly when the color order is BGR
(`rgb = false`); with RGB order the bit-pattern is sent unmodified. -/
theorem c6_set_orientation_madctl (d : Driver) (o : Orientation) :
    set_orientation d o allOkF ⟨0, []⟩ =
      (Except.ok (), ⟨11,
        wcTr Instruction.MADCTL [if d.rgb then o.toByte else o.toByte ||| 0x08]⟩) := by
  cases hrgb : d.rgb <;>
    simp [set_orientation, hrgb, write_command_run, wcCount]

/-- Claim C8: with zero global offset, `set_pixel 10 20 0xF800` puts on the
bus: CASET (0x2A) with big-endian parameters 10 and 10, RASET (0x2B) with
parameters 20 and 20, RAMWR (0x2C), then exactly the bytes F8 00. -/
theorem c8_set_pixel_scenario :
    (set_pixel (Driver.new true 240 240) 10 20 0xF800 allOkF ⟨0, []⟩).fst = Except.ok () ∧
    spiStream (set_pixel (Driver.new true 240 240) 10 20 0xF800 allOkF ⟨0, []⟩).snd.tr =
      [0x2A, 0x00, 0x0A, 0x00, 0x0A, 0x2B, 0x00, 0x14, 0x00, 0x14, 0x2C, 0xF8, 0x00] := by
  exact ⟨rfl, by decide⟩

/-- Claim C9: `set_pixel x y color` is definitionally the same computation as
`set_pixels x y x y [color]` — identical control-line operations and bus
writes under every fault oracle and every state. -/
theorem c9_set_pixel_is_singleton_set_pixels (d : Driver) (x y color : Nat) :
    set_pixel d x y color = set_pixels d x y x y [color] := by
  simp [set_pixel, set_pixels, write_pixels, write_pixels_go, bnd_ret_unit]

/-- Claim C2: for every word sequence, `write_words_buffered` succeeds and
emits over the bus exactly the byte stream of the corresponding sequential
`write_word` calls (each word big-endian, high byte first); the grouping
differs only in chunking — the buffered path performs one SPI transmission
per filled 16-word (32-byte) buffer plus one final flush for the remainder,
i.e. `N / 16 + 1` transmissions. -/
theorem c2_write_words_buffered_refines_write_word (words : List Nat) :
    (write_words_buffered words allOkF ⟨0, []⟩).fst = Except.ok () ∧
    (write_word_seq words allOkF ⟨0, []⟩).fst = Except.ok () ∧
    spiStream (write_words_buffered words allOkF ⟨0, []⟩).snd.tr
      = spiStream (write_word_seq words allOkF ⟨0, []⟩).snd.tr ∧
    spiCount (write_words_buffered words allOkF ⟨0, []⟩).snd.tr
      = words.length / 16 + 1 := by
  obtain ⟨h1, h2, h3⟩ := write_words_buffered_run words ⟨0, []⟩
  refine ⟨h1, ?_, ?_, ?_⟩
  · rw [write_word_seq_run]
  · rw [h2, write_word_seq_run]
    simp [spiStream_seqTr, spiStream]
  · rw [h3]
    simp [spiCount]

/-- Reset pulse trace of `hard_reset`. -/
def hardResetTr : List Ev :=
  [Ev.rstHigh, Ev.delayMs 10, Ev.rstLow, Ev.delayMs 10, Ev.rstHigh, Ev.delayMs 10]

/-- The full expected trace of `init`: the `hard_reset` pulse first, then the
fixed vendor command sequence in order, the last two commands being sleep-out
(0x11) then display-on (0x29), then the 200 ms stabilization delay. -/
def initExpectedTrace : List Ev :=
  hardResetTr ++
  wcTr 0xEF [] ++ wcTr 0xEB [0x14] ++ wcTr 0xFE [] ++ wcTr 0xEF [] ++ wcTr 0xEB [0x14] ++
  wcTr 0x84 [0x40] ++ wcTr 0x85 [0xFF] ++ wcTr 0x86 [0xFF] ++ wcTr 0x87 [0xFF] ++
  wcTr 0x88 [0x0A] ++ wcTr 0x89 [0x21] ++ wcTr 0x8A [0x00] ++ wcTr 0x8B [0x80] ++
  wcTr 0x8C [0x01] ++ wcTr 0x8D [0x01] ++ wcTr 0x8E [0xFF] ++ wcTr 0x8F [0xFF] ++
  wcTr 0xB6 [0x00, 0x20] ++ wcTr 0x36 [0x98] ++ wcTr 0x3A [0x05] ++
  wcTr 0x90 [0x08, 0x08, 0x08, 0x08] ++ wcTr 0xBD [0x06] ++ wcTr 0xBC [0x00] ++
  wcTr 0xFF [0x60, 0x01, 0x04] ++ wcTr 0xC3 [0x13] ++ wcTr 0xC4 [0x13] ++
  wcTr 0xC9 [0x22] ++ wcTr 0xBE [0x11] ++ wcTr 0xE1 [0x10, 0x0E] ++
  wcTr 0xDF [0x21, 0x0C, 0x02] ++ wcTr 0xF0 [0x45, 0x09, 0x08, 0x08, 0x26, 0x2A] ++
  wcTr 0xF1 [0x43, 0x70, 0x72, 0x36, 0x37, 0x6F] ++
  wcTr 0xF2 [0x45, 0x09, 0x08, 0x08, 0x26, 0x2A] ++
  wcTr 0xF3 [0x43, 0x70, 0x72, 0x36, 0x37, 0x6F] ++ wcTr 0xED [0x1B, 0x0B] ++
  wcTr 0xAE [0x77] ++ wcTr 0xCD [0x63] ++
  wcTr 0x70 [0x07, 0x07, 0x04, 0x0E, 0x0F, 0x09, 0x07, 0x08, 0x03] ++ wcTr 0xE8 [0x34] ++
  wcTr 0x62 [0x18, 0x0D, 0x71, 0xED, 0x70, 0x70, 0x18, 0x0F, 0x71, 0xEF, 0x70, 0x70] ++
  wcTr 0x63 [0x18, 0x11, 0x71, 0xF1, 0x70, 0x70, 0x18, 0x13, 0x71, 0xF3, 0x70, 0x70] ++
  wcTr 0x64 [0x28, 0x29, 0xF1, 0x01, 0xF1, 0x00, 0x07] ++
  wcTr 0x66 [0x3C, 0x00, 0xCD, 0x67, 0x45, 0x45, 0x10, 0x00, 0x00, 0x00] ++
  wcTr 0x67 [0x00, 0x3C, 0x00, 0x00, 0x00, 0x01, 0x54, 0x10, 0x32, 0x98] ++
  wcTr 0x74 [0x10, 0x85, 0x80, 0x00, 0x00, 0x4E, 0x00] ++ wcTr 0x98 [0x3E, 0x07] ++
  wcTr 0x35 [] ++ wcTr 0x21 [] ++ wcTr 0x11 [] ++ wcTr 0x29 [] ++
  [Ev.delayMs 200]

set_option maxRecDepth 8000 in
/-- Claim C3: `init` succeeds in the fault-free environment and performs
exactly `initExpectedTrace`: it invokes `hard_reset` first (the trace begins
with the reset pulse), issues the fixed initialization commands in exactly
the documented order with the documented payloads, issues sleep-out (0x11)
and display-on (0x29) as the last two commands, and waits 200 ms before
returning success. -/
theorem c3_init_sequence :
    (init allOkF ⟨0, []⟩).fst = Except.ok () ∧
    (init allOkF ⟨0, []⟩).snd.tr = initExpectedTrace := by
  exact ⟨rfl, by decide⟩

/-- Claim C7: if the fault oracle fails the (k+1)-st primitive inside
`write_command` (every earlier one succeeding), the call returns the single
generic transaction error (the transport cause is already collapsed to a unit
failure) and the trace gains exactly the k events before the failing step —
no further bus I/O or control-line toggling is performed. -/
theorem c7_write_command_error_short_circuit (command : Nat) (params : List Nat)
    (ok : Nat → Bool) (s : S) (k : Nat)
    (hpre : ∀ j, j < k → ok (s.n + j) = true)
    (hfail : ok (s.n + k) = false)
    (hk : k < (wcTr command params).length) :
    write_command command params ok s =
      (Except.error Failure.txError,
        ⟨s.n + k + 1, s.tr ++ (wcTr command params).take k⟩) := by
  rcases params with _ | ⟨p, ps⟩
  · have hk5 : k < 5 := by simpa [wcTr] using hk
    interval_cases k <;>
      (try have h0 : ok s.n = true := by simpa using hpre 0 (by omega)) <;>
      simp_all [write_command, bnd, attempt, ret, wcTr, Nat.add_assoc]
  · have hk11 : k < 11 := by simpa [wcTr, wdTr] using hk
    interval_cases k <;>
      (try have h0 : ok s.n = true := by simpa using hpre 0 (by omega)) <;>
      simp_all [write_command, bnd, attempt, start_data, write_data, ret, wcTr, wdTr,
        Nat.add_assoc]

/-- Witness for C7: failing the sixth primitive (k = 5) of
`write_command 0x2A [0x14]` yields the transaction error with exactly the
first five events performed. -/
theorem c7_witness :
    write_command 0x2A [0x14] (fun i => decide (i < 5)) ⟨0, []⟩ =
      (Except.error Failure.txError,
        ⟨6, [Ev.csHigh, Ev.dcLow, Ev.csLow, Ev.spiWrite [0x2A], Ev.dcHigh]⟩) :=
  c7_write_command_error_short_circuit 0x2A [0x14] (fun i => decide (i < 5)) ⟨0, []⟩ 5
    (fun j hj => by simpa using hj) (by decide) (by decide)

/-- Claim C4: for a full-panel-sized buffer on a panel with u16-representable
positive dimensions, `show_region(buffer, 0, 0, width, height)` succeeds and
transmits exactly the same SPI byte stream as `draw_image(buffer)`: the same
window commands and parameters, the same RAMWR, and the same pixel bytes in
the same order (only the chunk grouping of transmissions differs). -/
theorem c4_show_region_full_panel_eq_draw_image (d : Driver) (buffer : List Nat)
    (hw1 : 1 ≤ d.width) (hw2 : d.width < 65536)
    (hh1 : 1 ≤ d.height) (hh2 : d.height < 65536)
    (hlen : buffer.length = d.width * d.height * 2) :
    (show_region d buffer 0 0 d.width d.height allOkF ⟨0, []⟩).fst = Except.ok () ∧
    (draw_image d buffer allOkF ⟨0, []⟩).fst = Except.ok () ∧
    spiStream (show_region d buffer 0 0 d.width d.height allOkF ⟨0, []⟩).snd.tr
      = spiStream (draw_image d buffer allOkF ⟨0, []⟩).snd.tr := by
  have hex : (0 + d.width + 65535) % 65536 = d.width - 1 := by omega
  have hey : (0 + d.height + 65535) % 65536 = d.height - 1 := by omega
  have hexD : (d.width % 65536 + 65535) % 65536 = d.width - 1 := by omega
  have heyD : (d.height % 65536 + 65535) % 65536 = d.height - 1 := by omega
  have hrr : d.height - 1 + 1 - 0 = d.height := by omega
  have hb : ∀ y ∈ List.range' 0 d.height,
      (y * d.width + 0) * 2 + d.width * 2 ≤ buffer.length := by
    intro y hy
    rw [List.mem_range'_1] at hy
    have h1 : y + 1 ≤ d.height := by omega
    calc (y * d.width + 0) * 2 + d.width * 2 = (y + 1) * d.width * 2 := by ring
      _ ≤ d.height * d.width * 2 :=
          Nat.mul_le_mul_right 2 (Nat.mul_le_mul_right d.width h1)
      _ = d.width * d.height * 2 := by ring
      _ = buffer.length := hlen.symm
  have htake : buffer.length ≤ d.height * d.width * 2 := by
    rw [hlen]; exact Nat.le_of_eq (by ring)
  refine ⟨?_, ?_, ?_⟩
  · simp only [show_region, bnd, set_address_window_run, write_command_run,
      start_data_run, hey, hrr]
    exact (show_region_rows_run d buffer 0 d.width _ _ hb).1
  · simp [draw_image, bnd, set_address_window_run, write_command_run,
      start_data_run, write_chunks_run]
  · simp only [show_region, draw_image, bnd, set_address_window_run,
      write_command_run, start_data_run, write_chunks_run, hex, hey, hexD, heyD, hrr]
    rw [(show_region_rows_run d buffer 0 d.width _ _ hb).2]
    rw [rowsBytes_range d.width buffer d.height 0]
    simp [spiStream_append, spiStream_chunksTr, chunksOf_flatten 32 (by omega),
      List.take_of_length_le htake, List.append_assoc, spiStream, evBytes]

/-- Witness for C4 at a 2-by-2 panel with an 8-byte full-panel buffer. -/
theorem c4_witness :
    (show_region (Driver.new true 2 2) [1, 2, 3, 4, 5, 6, 7, 8] 0 0
        (Driver.new true 2 2).width (Driver.new true 2 2).height allOkF ⟨0, []⟩).fst
      = Except.ok () ∧
    (draw_image (Driver.new true 2 2) [1, 2, 3, 4, 5, 6, 7, 8] allOkF ⟨0, []⟩).fst
      = Except.ok () ∧
    spiStream (show_region (Driver.new true 2 2) [1, 2, 3, 4, 5, 6, 7, 8] 0 0
        (Driver.new true 2 2).width (Driver.new true 2 2).height allOkF ⟨0, []⟩).snd.tr
      = spiStream (draw_image (Driver.new true 2 2) [1, 2, 3, 4, 5, 6, 7, 8]
          allOkF ⟨0, []⟩).snd.tr :=
  c4_show_region_full_panel_eq_draw_image (Driver.new true 2 2) [1, 2, 3, 4, 5, 6, 7, 8]
    (by decide) (by decide) (by decide) (by decide) (by decide)

/-- Counterexample to claim C10 as stated: with the wrapping (release-mode)
u16 arithmetic the code compiles to, a `show_region` call with `width = 0`
does not underflow or fail at all — on an empty buffer it returns success —
even though the claimed precondition `width ≥ 1` is violated. -/
theorem c10_counterexample :
    (show_region (Driver.new true 240 240) [] 0 0 0 1 allOkF ⟨0, []⟩).fst = Except.ok () ∧
    ¬ (1 : Nat) ≤ 0 := by
  constructor
  · simp only [show_region, bnd, set_address_window_run, write_command_run, start_data_run]
    exact (show_region_rows_run _ [] 0 0 _ _ (by decide)).1
  · decide

/-- Claim C10 (amended): u16 arithmetic wraps modulo 2^16, so `width = 0` or
`height = 0` wrap the window-corner subtractions silently instead of failing;
the only failure mode of `show_region` is an out-of-bounds row slice.  In the
wrap-free regime (`1 ≤ w`, `1 ≤ h`, `tlx + w ≤ 65536`, `tly + h ≤ 65536`) a
successful fault-free run still requires the full-panel-stride bound
`buffer.len ≥ ((tly + h - 1) * panel_width + tlx + w) * 2`. -/
theorem c10_show_region_requires_full_stride (d : Driver) (buffer : List Nat)
    (tlx tly w h : Nat) (hw : 1 ≤ w) (hh : 1 ≤ h)
    (hxw : tlx + w ≤ 65536) (hyh : tly + h ≤ 65536)
    (hok : (show_region d buffer tlx tly w h allOkF ⟨0, []⟩).fst = Except.ok ()) :
    ((tly + h - 1) * d.width + tlx + w) * 2 ≤ buffer.length := by
  simp only [show_region, bnd, set_address_window_run, write_command_run,
    start_data_run] at hok
  have hey : (tly + h + 65535) % 65536 = tly + h - 1 := by omega
  rw [hey] at hok
  have hr : tly + h - 1 + 1 - tly = h := by omega
  rw [hr] at hok
  have hmem : tly + h - 1 ∈ List.range' tly h := by
    rw [List.mem_range'_1]
    omega
  have hbound := show_region_rows_bound d buffer tlx w (List.range' tly h) allOkF _
    (tly + h - 1) hmem hok
  omega

/-- Witness for C10 (amended) on a 4-by-4 panel: a successful
`show_region(buffer, 1, 1, 2, 2)` run forces `buffer.len ≥ 22`. -/
theorem c10_witness :
    (show_region (Driver.new true 4 4) (List.replicate 22 0) 1 1 2 2 allOkF ⟨0, []⟩).fst
      = Except.ok () ∧
    ((1 + 2 - 1) * (Driver.new true 4 4).width + 1 + 2) * 2
      ≤ (List.replicate 22 (0 : Nat)).length := by
  have hok : (show_region (Driver.new true 4 4) (List.replicate 22 0) 1 1 2 2
      allOkF ⟨0, []⟩).fst = Except.ok () := by
    simp only [show_region, bnd, set_address_window_run, write_command_run, start_data_run]
    exact (show_region_rows_run _ _ 1 2 _ _ (by decide)).1
  exact ⟨hok,
    c10_show_region_requires_full_stride (Driver.new true 4 4) (List.replicate 22 0)
      1 1 2 2 (by decide) (by decide) (by decide) (by decide) hok⟩

end GC9A01A
